import Mathlib

/-!
# AnimationController (script.js): a shallow embedding

The controller of `script.js` is embedded as follows.

* Every method that writes styles, registers listeners or schedules timers becomes a
  function into `Eff`, a tree of the effects the method issues, in program order.
  `setTimeout(cb, d)` is the node `Eff.setTimeout d cb`; a `forEach` over the result of
  `querySelectorAll` is `Eff.forEach n body` over the `n` matched elements.
* `timeline t e` is the schedule of `e` when it is started at time `t` (milliseconds):
  every atomic effect paired with the time it executes, in the order of execution.
  The statements of `e` run as one task (`exec`), then the event loop (`eventLoop`)
  runs the timers, the one due first next and, among timers due together, the one set
  first.  Timers are ideal (a callback runs exactly `delay` ms after `setTimeout`).
* `runAll` executes a schedule in time order on the inline styles of the page.
* Numbers are doubles: `JSNum.mul` rounds the exact product to the nearest double,
  ties to even (`roundToDouble`).
* The controller object and the document readiness protocol (`init`, `waitForDOM`)
  are explicit state passing over `World`.
* `typeWriter`, the hover preview and the intersection observer keep closure or host
  state between callbacks and are embedded as step functions on that state.

The page is static: the script never adds or removes elements, so the elements a
selector matches are fixed, and they are recorded in `Dom`.  Each selector family is
its own kind of `Target`.
-/

namespace LandingPage

/-! ## JavaScript values -/

/-- JavaScript Number values: `NaN`, a finite double, held as the rational number it
denotes, or an infinity with its sign.  The two zeros are one value: they convert to
the same string, which is all the script does with an offset. -/
inductive JSNum
  | nan
  | num (q : ℚ)
  | inf (negative : Bool)
deriving DecidableEq

/-- Floor of the binary logarithm, by repeated halving (`fuel` halvings at most). -/
def ilog2Aux : Nat → Nat → Nat
  | 0, _ => 0
  | fuel + 1, n => if n < 2 then 0 else ilog2Aux fuel (n / 2) + 1

/-- Floor of the binary logarithm of a positive natural number. -/
def ilog2 (n : Nat) : Nat :=
  ilog2Aux n n

/-- The natural number nearest to `a / b`, a tie going to the even one. -/
def roundHalfEven (a b : Nat) : Nat :=
  if 2 * (a % b) < b then a / b
  else if b < 2 * (a % b) then a / b + 1
  else if (a / b) % 2 = 0 then a / b else a / b + 1

/-- Floor of the binary logarithm of `a / b`, for positive `a` and `b`. -/
def floorLog2 (a b : Nat) : Int :=
  if a * 2 ^ ilog2 b < b * 2 ^ ilog2 a then (ilog2 a : Int) - ilog2 b - 1
  else (ilog2 a : Int) - ilog2 b

/-- IEEE 754 binary64 rounding (to nearest, ties to even) of the positive fraction
`a / b`: the result is `r * 2 ^ k` with a significand `r` of at most 53 bits, the
binary exponent being at least `-1022` (below it the values are subnormal); `none`
when the rounded value is beyond the largest double. -/
def roundParts (a b : Nat) : Option (Nat × Int) :=
  let e := max (floorLog2 a b) (-1022)
  let k := e - 52
  let r :=
    if 0 ≤ k then roundHalfEven a (b * 2 ^ k.toNat)
    else roundHalfEven (a * 2 ^ (-k).toNat) b
  if 1023 < e ∨ (e = 1023 ∧ r = 2 ^ 53) then none else some (r, k)

/-- The double nearest to the real number `q`, the way every arithmetic operation
of the language rounds its exact result; an infinity when `q` is out of range. -/
def roundToDouble (q : ℚ) : JSNum :=
  if q = 0 then .num 0
  else
    match roundParts q.num.natAbs q.den with
    | some (r, k) => .num ((if q < 0 then -1 else 1) * (r : ℚ) * 2 ^ k)
    | none => .inf (decide (q < 0))

/-- The `*` operator on numbers: the exact product, rounded to a double. -/
def JSNum.mul : JSNum → JSNum → JSNum
  | .nan, _ => .nan
  | _, .nan => .nan
  | .num a, .num b => roundToDouble (a * b)
  | .num a, .inf negative => if a = 0 then .nan else .inf (xor negative (decide (a < 0)))
  | .inf negative, .num b => if b = 0 then .nan else .inf (xor negative (decide (b < 0)))
  | .inf n1, .inf n2 => .inf (xor n1 n2)

/-- Unary minus. -/
def JSNum.neg : JSNum → JSNum
  | .num a => .num (-a)
  | .nan => .nan
  | .inf negative => .inf (!negative)

/-- The values `el.dataset.parallax || 0.5` ranges over: a string or a number. -/
inductive JSVal
  | str (s : String)
  | number (n : JSNum)
deriving DecidableEq

/-- ToBoolean: a string is falsy exactly when it is empty; a number is falsy exactly
when it is zero or `NaN`. -/
def JSVal.toBoolean : JSVal → Bool
  | .str s => decide (s ≠ "")
  | .number .nan => false
  | .number (.num q) => decide (q ≠ 0)
  | .number (.inf _) => true

/-- The `||` operator: the left operand when it is truthy, else the right operand. -/
def JSVal.or (a b : JSVal) : JSVal :=
  if a.toBoolean then a else b

/-- ToNumber on the operand of `*`.  The conversion of a string (StringToNumber) is
the language runtime's and is a parameter. -/
def JSVal.toNumber (stringToNumber : String → JSNum) : JSVal → JSNum
  | .str s => stringToNumber s
  | .number n => n

/-- The characters StringToNumber strips from both ends: white space and line
terminators, by code point. -/
def isStrWhiteSpace (c : Char) : Bool :=
  decide (c.toNat ∈ [9, 10, 11, 12, 13, 32, 160, 5760, 8232, 8233, 8239, 8287, 12288, 65279]
    ∨ (8192 ≤ c.toNat ∧ c.toNat ≤ 8202))

/-- Strip white space from both ends. -/
def trimWhiteSpace (cs : List Char) : List Char :=
  ((cs.dropWhile isStrWhiteSpace).reverse.dropWhile isStrWhiteSpace).reverse

/-- Value of a digit in the bases up to sixteen. -/
def digitValue (c : Char) : Option Nat :=
  if 48 ≤ c.toNat ∧ c.toNat ≤ 57 then some (c.toNat - 48)
  else if 97 ≤ c.toNat ∧ c.toNat ≤ 102 then some (c.toNat - 87)
  else if 65 ≤ c.toNat ∧ c.toNat ≤ 70 then some (c.toNat - 55)
  else none

/-- Value of a non-empty list of digits of the given base, most significant first. -/
def digitsIn (base : Nat) (cs : List Char) : Option Nat :=
  if cs = [] then none
  else
    cs.foldl (fun acc c =>
      match acc, digitValue c with
      | some v, some d => if d < base then some (base * v + d) else none
      | _, _ => none) (some 0)

/-- Value of a list of decimal digits, most significant first (`0` for no digit). -/
def digitsValue (ds : List Char) : Nat :=
  ds.foldl (fun acc c => 10 * acc + (c.toNat - 48)) 0

/-- The exponent part of a decimal literal, after its `e`: an optional sign and at
least one digit. -/
def parseExponent (cs : List Char) : Option Int :=
  match cs with
  | [] => none
  | c :: rest =>
    if c = '-' then
      if rest ≠ [] ∧ rest.all Char.isDigit = true then some (-(digitsValue rest : Int)) else none
    else if c = '+' then
      if rest ≠ [] ∧ rest.all Char.isDigit = true then some (digitsValue rest : Int) else none
    else if (c :: rest).all Char.isDigit = true then some (digitsValue (c :: rest) : Int)
    else none

/-- An unsigned decimal literal `ddd`, `ddd.ddd`, `ddd.` or `.ddd` with an optional
exponent part: the pair `(m, e)` stands for `m * 10 ^ e`. -/
def parseUnsigned (cs : List Char) : Option (Nat × Int) :=
  let intPart := cs.takeWhile Char.isDigit
  let afterInt := cs.dropWhile Char.isDigit
  let point := decide (afterInt.head? = some '.')
  let frac := if point then afterInt.tail.takeWhile Char.isDigit else []
  let afterFrac := if point then afterInt.tail.dropWhile Char.isDigit else afterInt
  if intPart = [] ∧ frac = [] then none
  else
    match afterFrac with
    | [] => some (digitsValue (intPart ++ frac), -(frac.length : Int))
    | c :: rest =>
      if c = 'e' ∨ c = 'E' then
        (parseExponent rest).map fun x => (digitsValue (intPart ++ frac), x - (frac.length : Int))
      else none

/-- A string numeric literal without surrounding white space: `none` when the text
is no literal, else the sign and either `none` for `Infinity` or `some (m, e)` for the
magnitude `m * 10 ^ e`.  The literals with a radix prefix take no sign. -/
def parseNumeric (cs : List Char) : Option (Bool × Option (Nat × Int)) :=
  match cs with
  | [] => none
  | c :: rest =>
    if c = '0' ∧ (rest.head? = some 'x' ∨ rest.head? = some 'X') then
      (digitsIn 16 rest.tail).map fun m => (false, some (m, 0))
    else if c = '0' ∧ (rest.head? = some 'o' ∨ rest.head? = some 'O') then
      (digitsIn 8 rest.tail).map fun m => (false, some (m, 0))
    else if c = '0' ∧ (rest.head? = some 'b' ∨ rest.head? = some 'B') then
      (digitsIn 2 rest.tail).map fun m => (false, some (m, 0))
    else
      let negative := decide (c = '-')
      let body := if c = '-' ∨ c = '+' then rest else c :: rest
      if body = "Infinity".toList then some (negative, none)
      else (parseUnsigned body).map fun me => (negative, some me)

/-- StringToNumber, the conversion `*` applies to a string operand (the function
keeps the name of its main case, the decimal literal): white space is stripped, the
empty string converts to `0`, a numeric literal to the double nearest to its value,
and any other text to `NaN`. -/
def decimalToNumber (s : String) : JSNum :=
  if s = "" then .num 0
  else
    match trimWhiteSpace s.toList with
    | [] => .num 0
    | cs =>
      match parseNumeric cs with
      | none => .nan
      | some (negative, none) => .inf negative
      | some (true, some (m, e)) => (roundToDouble ((m : ℚ) * 10 ^ e)).neg
      | some (false, some (m, e)) => roundToDouble ((m : ℚ) * 10 ^ e)

/-- A JavaScript string as its sequence of UTF-16 code units (`length` counts code
units and `charAt` returns one code unit). -/
abbrev JSText := List Nat

/-! ## Elements, styles and effects -/

/-- The elements the script touches, by the selector that finds them.  An index is
the position in the `querySelectorAll` result. -/
inductive Target
  | loader          -- `#loader`
  | progressBar     -- `#loader .progress-bar`
  | loaderText      -- `#loader .loader-text`
  | fullScr         -- `#full-scr`
  | navImage        -- `nav img`
  | menuItem (index : Nat)   -- `#full-scr .menu-item`
  | fixedImage      -- `#fixed-image`
  | elem (index : Nat)       -- `.elem`
  | entrance (index : Nat)   -- `[data-entrance]`
  | parallax (index : Nat)   -- `[data-parallax]`
deriving DecidableEq

/-- The inline style properties the script assigns. -/
inductive StyleProp
  | display
  | opacity
  | transform
  | transition
  | width
  | backgroundImage
  | backgroundSize
  | backgroundPosition
deriving DecidableEq

/-- A value assigned to a style property: a string, or the template
`translateY(${yPos}px)` with its number. -/
inductive Val
  | lit (s : String)
  | translateYPx (yPos : JSNum)
deriving DecidableEq

/-- Where a listener is registered. -/
inductive Source
  | document
  | elemContainer   -- `#elem-container`
  | elem (index : Nat)
  | menuTrigger     -- `nav h3`
  | scroll          -- the LocomotiveScroll instance
  | swiper          -- the Swiper instance
deriving DecidableEq

/-- The listeners of the script, named by the method they call. -/
inductive Handler
  | showFixedImage
  | hideFixedImage
  | updateFixedImage (index : Nat)
  | updateImagePosition
  | menuClick
  | menuEscape
  | handleScrollProgress
  | animateSlideContent
deriving DecidableEq

/-- Atomic effects. -/
inductive Atom
  | style (x : Target) (p : StyleProp) (v : Val)     -- `x.style.p = v`
  | text (x : Target) (s : JSText)                    -- `x.textContent = s`
  | listen (src : Source) (event : String) (h : Handler)   -- `addEventListener` / `on`
  | observe (index : Nat)                             -- `observer.observe(el)`
  | warn (msg : String)                               -- `console.warn(msg, error)`
  | clearInterval
deriving DecidableEq

/-- The effects a method issues, in program order. -/
inductive Eff
  | skip
  | atom (a : Atom)
  | seq (a b : Eff)
  | setTimeout (delay : Nat) (callback : Eff)
deriving DecidableEq

/-- A block of statements. -/
def Eff.all : List Eff → Eff
  | [] => .skip
  | e :: es => .seq e (Eff.all es)

/-- The loop `elements.forEach((el, index) => body)`, the index starting at `start`. -/
def Eff.forEachFrom {α : Type} (body : α → Nat → Eff) : Nat → List α → Eff
  | _, [] => .skip
  | start, el :: els => .seq (body el start) (Eff.forEachFrom body (start + 1) els)

/-- The loop `elements.forEach((el, index) => body)`. -/
def Eff.forEachOf {α : Type} (elements : List α) (body : α → Nat → Eff) : Eff :=
  Eff.forEachFrom body 0 elements

/-- The same loop over `n` elements of which the body uses only the index. -/
def Eff.forEach (n : Nat) (body : Nat → Eff) : Eff :=
  Eff.forEachOf (List.replicate n ()) (fun _ index => body index)

/-- Write `x.style.p = s` for a string `s`. -/
def setStyle (x : Target) (p : StyleProp) (s : String) : Eff :=
  .atom (.style x p (.lit s))

/-- Number of `setTimeout` calls an effect tree contains. -/
def Eff.timers : Eff → Nat
  | .skip => 0
  | .atom _ => 0
  | .seq a b => a.timers + b.timers
  | .setTimeout _ cb => 1 + cb.timers

/-- The statements of `e` run at time `now`, as one task: the atomic effects executed,
in order, and the timers set, in order, each with the time it is due and its
callback. -/
def exec (now : Nat) : Eff → List (Nat × Atom) × List (Nat × Eff)
  | .skip => ([], [])
  | .atom a => ([(now, a)], [])
  | .seq a b => ((exec now a).1 ++ (exec now b).1, (exec now a).2 ++ (exec now b).2)
  | .setTimeout d cb => ([], [(now + d, cb)])

/-- The timer the event loop runs next, and the timers that stay pending: the timer
due first, and among timers due at the same time the one set first. -/
def pickNext : List (Nat × Eff) → Option ((Nat × Eff) × List (Nat × Eff))
  | [] => none
  | tm :: rest =>
    match pickNext rest with
    | none => some (tm, [])
    | some (best, others) =>
      if tm.1 ≤ best.1 then some (tm, rest) else some (best, tm :: others)

/-- The event loop: run the pending timers one after the other, each callback as a
task at its due time; the timers a callback sets join the pending ones.  `fuel`
bounds the number of callbacks run. -/
def eventLoop : Nat → List (Nat × Eff) → List (Nat × Atom)
  | 0, _ => []
  | fuel + 1, pending =>
    match pickNext pending with
    | none => []
    | some (tm, rest) => (exec tm.1 tm.2).1 ++ eventLoop fuel (rest ++ (exec tm.1 tm.2).2)

/-- The schedule of `e` started at time `t`: each atomic effect with the time at which
it executes, in the order of execution.  The statements of `e` run first, then the
event loop runs every timer (`e.timers` callbacks in all). -/
def timeline (t : Nat) (e : Eff) : List (Nat × Atom) :=
  (exec t e).1 ++ eventLoop e.timers (exec t e).2

/-- The effects of `e` started at time `t` with their times, listed in program order
(a callback in the place of its `setTimeout`).  It has the same entries as
`timeline t e` and serves to reason about them. -/
def stamps (t : Nat) : Eff → List (Nat × Atom)
  | .skip => []
  | .atom a => [(t, a)]
  | .seq a b => stamps t a ++ stamps t b
  | .setTimeout d cb => stamps (t + d) cb

/-- The callbacks still to run when the timers `pending` are set: the timers
themselves and those their callbacks will set. -/
def pendingTimers (pending : List (Nat × Eff)) : Nat :=
  (pending.map fun tm => 1 + tm.2.timers).sum

/-- Inline styles of the page: the value last assigned to each property, if any. -/
abbrev Styles := Target → StyleProp → Option Val

/-- No inline style assigned yet. -/
def Styles.empty : Styles := fun _ _ => none

/-- Execute one atomic effect on the inline styles. -/
def applyAtom (s : Styles) : Atom → Styles
  | .style x p v => fun y q => if y = x ∧ q = p then some v else s y q
  | _ => s

/-- Insert a scheduled effect into a time-ordered schedule, before the entries that
are not earlier than it. -/
def insertByTime (e : Nat × Atom) : List (Nat × Atom) → List (Nat × Atom)
  | [] => [e]
  | x :: xs => if e.1 ≤ x.1 then e :: x :: xs else x :: insertByTime e xs

/-- Order a schedule by time; effects due at the same time keep their order (when
the schedules of two tasks are put together, the earlier task goes first). -/
def sortByTime : List (Nat × Atom) → List (Nat × Atom)
  | [] => []
  | e :: es => insertByTime e (sortByTime es)

/-- Run a schedule to completion: all effects, in time order. -/
def runAll (sched : List (Nat × Atom)) (s : Styles) : Styles :=
  (sortByTime sched).foldl (fun st e => applyAtom st e.2) s

/-! ## The page -/

/-- The `#loader` element: whether it contains a `.progress-bar`, and the text of its
`.loader-text` child if it has one. -/
structure Loader where
  progressBar : Bool
  loaderText : Option JSText

/-- What the selectors of the script find in the document. -/
structure Dom where
  loader : Option Loader          -- `#loader`
  menuTrigger : Bool              -- `nav h3`
  fullScr : Bool                  -- `#full-scr`
  navImage : Bool                 -- `nav img`
  menuItems : Nat                 -- `#full-scr .menu-item`
  elemContainer : Bool            -- `#elem-container`
  fixedImage : Bool               -- `#fixed-image`
  elems : List (Option String)    -- `.elem`, each with `getAttribute("data-image")`
  entrance : Nat                  -- `[data-entrance]`
  parallax : List String          -- `[data-parallax]`, each with `dataset.parallax`
  scrollAnimate : Nat             -- `[data-scroll-animate]`
  swiperContainer : Bool          -- `.mySwiper`

/-- The part `config.loader` of the configuration. -/
structure LoaderConfig where
  duration : Nat
  easing : String

/-- The configuration the constructor installs. -/
def defaultLoaderConfig : LoaderConfig :=
  { duration := 4200, easing := "cubic-bezier(0.77, 0, 0.175, 1)" }

/-- A page with every element the script looks for. -/
def samplePage : Dom :=
  { loader := some { progressBar := true, loaderText := some [76, 111, 97, 100] },
    menuTrigger := true, fullScr := true, navImage := true, menuItems := 3,
    elemContainer := true, fixedImage := true,
    elems := [some "a.jpg", some "b.jpg", none],
    entrance := 3, parallax := ["0.5", "", "0", "0.1"], scrollAnimate := 2,
    swiperContainer := true }

/-- A page whose only content is a menu with one item. -/
def oneItemMenu : Dom :=
  { loader := none, menuTrigger := true, fullScr := true, navImage := false, menuItems := 1,
    elemContainer := false, fixedImage := false, elems := [], entrance := 0, parallax := [],
    scrollAnimate := 0, swiperContainer := false }

/-- A page with none of the elements the script looks for. -/
def emptyPage : Dom :=
  { loader := none, menuTrigger := false, fullScr := false, navImage := false, menuItems := 0,
    elemContainer := false, fixedImage := false, elems := [], entrance := 0, parallax := [],
    scrollAnimate := 0, swiperContainer := false }

/-! ## Scroll parallax -/

/-- Method `handleScrollProgress(scrollY)`. -/
def handleScrollProgress (stringToNumber : String → JSNum) (dom : Dom) (scrollY : JSNum) : Eff :=
  Eff.forEachOf dom.parallax fun parallax index =>
    let speed := (JSVal.str parallax).or (.number (.num 0.5))
    let yPos := (scrollY.mul (speed.toNumber stringToNumber)).neg
    .atom (.style (.parallax index) .transform (.translateYPx yPos))

/-! ## Hover preview (page 4) -/

/-- Method `initPage4Animation()`. -/
def initPage4Animation (dom : Dom) : Eff :=
  if dom.elemContainer = false ∨ dom.fixedImage = false then .skip
  else Eff.all [
    .atom (.listen .elemContainer "mouseenter" .showFixedImage),
    .atom (.listen .elemContainer "mouseleave" .hideFixedImage),
    Eff.forEachOf dom.elems (fun _ index => Eff.all [
      .atom (.listen (.elem index) "mouseenter" (.updateFixedImage index)),
      setStyle (.elem index) .opacity "0",
      setStyle (.elem index) .transform "translateY(30px)",
      .setTimeout (index * 100) (Eff.all [
        setStyle (.elem index) .transition "all 0.6s cubic-bezier(0.77, 0, 0.175, 1)",
        setStyle (.elem index) .opacity "1",
        setStyle (.elem index) .transform "translateY(0)"])]),
    .atom (.listen .elemContainer "mousemove" .updateImagePosition)]

/-- State of the hover preview: the inline styles, and the probe images created so far
(`new Image()`), each with the URL its `onload` handler will install. -/
structure Preview where
  styles : Styles
  probes : List String

/-- Method `updateFixedImage(fixedImage, elem, event)`; `dataImage` is
`elem.getAttribute("data-image")`.  A probe image is created, its handler set and its
`src` assigned; nothing else happens in the call. -/
def updateFixedImage (dataImage : Option String) (s : Preview) : Preview :=
  match dataImage with
  | none => s
  | some imageUrl =>
    if imageUrl = "" then s
    else { s with probes := s.probes ++ [imageUrl] }

/-- The `img.onload` handler of the probe created for `imageUrl`. -/
def probeOnload (imageUrl : String) (s : Preview) : Preview :=
  { s with styles :=
      [Atom.style .fixedImage .backgroundImage (.lit ("url(" ++ imageUrl ++ ")")),
       Atom.style .fixedImage .backgroundSize (.lit "cover"),
       Atom.style .fixedImage .backgroundPosition (.lit "center")].foldl applyAtom s.styles }

/-- What can happen to the hover preview. -/
inductive PreviewEvent
  | mouseenter (dataImage : Option String)   -- the pointer enters an `.elem`
  | load (probe : Nat)                       -- the load event of a probe image
deriving DecidableEq

/-- One event of the hover preview. -/
def Preview.step (s : Preview) : PreviewEvent → Preview
  | .mouseenter dataImage => updateFixedImage dataImage s
  | .load probe =>
    match s.probes[probe]? with
    | some imageUrl => probeOnload imageUrl s
    | none => s

/-- A trace of events of the hover preview. -/
def Preview.run (s : Preview) (trace : List PreviewEvent) : Preview :=
  trace.foldl Preview.step s

/-- The background image of `#fixed-image`. -/
def Preview.backgroundImage (s : Preview) : Option Val :=
  s.styles .fixedImage .backgroundImage

/-! ## Menu -/

/-- Method `animateMenuItems(show)`. -/
def animateMenuItems (dom : Dom) (show_ : Bool) : Eff :=
  Eff.forEach dom.menuItems fun index =>
    if show_ then Eff.all [
      setStyle (.menuItem index) .opacity "0",
      setStyle (.menuItem index) .transform "translateY(30px)",
      .setTimeout (index * 100 + 300) (Eff.all [
        setStyle (.menuItem index) .transition "all 0.6s cubic-bezier(0.77, 0, 0.175, 1)",
        setStyle (.menuItem index) .opacity "1",
        setStyle (.menuItem index) .transform "translateY(0)"])]
    else Eff.all [
      setStyle (.menuItem index) .transition "all 0.3s ease-out",
      setStyle (.menuItem index) .opacity "0",
      setStyle (.menuItem index) .transform "translateY(-20px)"]

/-- Method `toggleMenu(fullScreen, navImage, isOpen)`. -/
def toggleMenu (dom : Dom) (isOpen : Bool) : Eff :=
  if !isOpen then Eff.all [
    setStyle .fullScr .transition "transform 0.8s cubic-bezier(0.77, 0, 0.175, 1)",
    setStyle .fullScr .transform "translateY(0%)",
    (if dom.navImage then Eff.all [
      setStyle .navImage .transition "opacity 0.3s ease-out",
      setStyle .navImage .opacity "0"]
     else .skip),
    animateMenuItems dom true]
  else Eff.all [
    setStyle .fullScr .transform "translateY(-100%)",
    (if dom.navImage then .setTimeout 400 (setStyle .navImage .opacity "1") else .skip),
    animateMenuItems dom false]

/-- Method `initMenuAnimation()`: the two listeners it registers. -/
def initMenuAnimation (dom : Dom) : Eff :=
  if dom.menuTrigger = false ∨ dom.fullScr = false then .skip
  else Eff.all [
    .atom (.listen .menuTrigger "click" .menuClick),
    .atom (.listen .document "keydown" .menuEscape)]

/-- The click listener of `initMenuAnimation`, on the closure variable `isMenuOpen`. -/
def menuClick (dom : Dom) (isMenuOpen : Bool) : Eff × Bool :=
  (toggleMenu dom isMenuOpen, !isMenuOpen)

/-- The keydown listener of `initMenuAnimation`; `key` is `e.key`. -/
def menuEscape (dom : Dom) (key : String) (isMenuOpen : Bool) : Eff × Bool :=
  if key = "Escape" ∧ isMenuOpen = true then (toggleMenu dom isMenuOpen, false)
  else (.skip, isMenuOpen)

/-- The menu opened at time `tOpen` and closed at time `tClose`: the schedule of both
`toggleMenu` calls. -/
def openThenClose (dom : Dom) (tOpen tClose : Nat) : List (Nat × Atom) :=
  timeline tOpen (toggleMenu dom false) ++ timeline tClose (toggleMenu dom true)

/-! ## Loader and page entrance -/

/-- State of one `typeWriter` call: the text of the element, the counter `i`, and
whether the interval timer is still set. -/
structure TypeWriter where
  textContent : JSText
  i : Nat
  timer : Bool
deriving DecidableEq

/-- Method `text.charAt(i)`. -/
def charAt (text : JSText) (i : Nat) : JSText :=
  match text[i]? with
  | some c => [c]
  | none => []

/-- Method `typeWriter(element, text, speed)` up to `setInterval`. -/
def typeWriterStart : TypeWriter :=
  { textContent := [], i := 0, timer := true }

/-- One tick of the interval of `typeWriter`; a cleared interval does not run. -/
def typeWriterTick (text : JSText) (s : TypeWriter) : TypeWriter :=
  if s.timer then
    if s.i < text.length then
      { s with textContent := s.textContent ++ charAt text s.i, i := s.i + 1 }
    else { s with timer := false }
  else s

/-- State of `typeWriter` after `k` interval periods. -/
def typeWriterRun (text : JSText) : Nat → TypeWriter
  | 0 => typeWriterStart
  | k + 1 => typeWriterTick text (typeWriterRun text k)

/-- The effect of the tick of `typeWriter` that follows `k` earlier ticks. -/
def typeWriterTickEff (x : Target) (text : JSText) (k : Nat) : Eff :=
  let s := typeWriterRun text k
  if s.timer then
    if s.i < text.length then .atom (.text x (typeWriterTick text s).textContent)
    else .atom .clearInterval
  else .skip

/-- Method `typeWriter(element, text, speed)` as effects: the interval is unrolled
into its `text.length + 1` ticks, the last of which clears it. -/
def typeWriter (x : Target) (text : JSText) (speed : Nat) : Eff :=
  .seq (.atom (.text x []))
    (Eff.forEach (text.length + 1) fun k =>
      .setTimeout (speed * (k + 1)) (typeWriterTickEff x text k))

/-- Method `triggerPageEntrance()`. -/
def triggerPageEntrance (dom : Dom) : Eff :=
  Eff.forEach dom.entrance fun index => Eff.all [
    setStyle (.entrance index) .opacity "0",
    setStyle (.entrance index) .transform "translateY(50px)",
    .setTimeout (index * 150) (Eff.all [
      setStyle (.entrance index) .transition "all 0.8s cubic-bezier(0.77, 0, 0.175, 1)",
      setStyle (.entrance index) .opacity "1",
      setStyle (.entrance index) .transform "translateY(0)"])]

/-- Method `hideLoader(loader)`. -/
def hideLoader (config : LoaderConfig) (dom : Dom) : Eff :=
  Eff.all [
    setStyle .loader .transition ("transform 1s " ++ config.easing),
    setStyle .loader .transform "translateY(-100%)",
    .setTimeout 1000 (Eff.all [
      setStyle .loader .display "none",
      triggerPageEntrance dom])]

/-- Method `initLoaderAnimation()`. -/
def initLoaderAnimation (config : LoaderConfig) (dom : Dom) : Eff :=
  match dom.loader with
  | none => .skip
  | some loader => Eff.all [
    (if loader.progressBar then Eff.all [
      setStyle .progressBar .width "0%",
      setStyle .progressBar .transition
        ("width " ++ toString config.duration ++ "ms " ++ config.easing),
      .setTimeout 100 (setStyle .progressBar .width "100%")]
     else .skip),
    (match loader.loaderText with
     | some textContent => typeWriter .loaderText textContent 50
     | none => .skip),
    .setTimeout config.duration (hideLoader config dom)]

/-! ## Scroll triggers -/

/-- Method `initScrollTriggers()`: the elements handed to the observer. -/
def initScrollTriggers (dom : Dom) : Eff :=
  Eff.forEach dom.scrollAnimate fun index => .atom (.observe index)

/-- An `IntersectionObserverEntry`: the observed element and `isIntersecting`. -/
structure Entry where
  target : Nat
  isIntersecting : Bool
deriving DecidableEq

/-- The class list of every `[data-scroll-animate]` element. -/
abbrev ClassLists := Nat → List String

/-- Method `classList.add(token)`. -/
def classListAdd (classList : List String) (token : String) : List String :=
  if token ∈ classList then classList else classList ++ [token]

/-- The callback handed to `new IntersectionObserver` in `initScrollTriggers`. -/
def observerCallback (cls : ClassLists) (entries : List Entry) : ClassLists :=
  entries.foldl (fun c entry =>
    if entry.isIntersecting then
      fun el => if el = entry.target then classListAdd (c el) "animate-in" else c el
    else c) cls

/-- A sequence of invocations of the observer callback. -/
def observerRun (cls : ClassLists) (calls : List (List Entry)) : ClassLists :=
  calls.foldl observerCallback cls

/-! ## The controller and `init` -/

/-- How a third-party library global behaves: not defined at all, defined with a
constructor that throws, defined with an instance whose `on` throws, or working. -/
inductive Library
  | undefined
  | ctorThrows
  | onThrows
  | works
deriving DecidableEq

/-- The host environment of the script.  `IntersectionObserver`, timers and the DOM
methods are native and present. -/
structure Host where
  dom : Dom
  loading : Bool                -- `document.readyState === 'loading'`
  locomotiveScroll : Library    -- the global `LocomotiveScroll`
  swiper : Library              -- the global `Swiper`

/-- The six steps of the callback of `init`. -/
inductive InitStep
  | initLocomotiveScroll
  | initSwiperAnimation
  | initPage4Animation
  | initMenuAnimation
  | initLoaderAnimation
  | initScrollTriggers
deriving DecidableEq

/-- The controller object together with what it has done to its environment.
`scroll` and `swiper` tell whether `this.scroll` and `this.swiper` are set;
`readyListeners` counts the `DOMContentLoaded` listeners `waitForDOM` has added, each
of them the callback of `init`; `calls` records every init step entered, in order;
`effects` collects the effects issued. -/
structure World where
  isInitialized : Bool
  loader : LoaderConfig
  scroll : Bool
  swiper : Bool
  readyListeners : Nat
  calls : List InitStep
  effects : Eff

/-- The controller as the constructor leaves it before it calls `init`. -/
def World.new : World :=
  { isInitialized := false, loader := defaultLoaderConfig, scroll := false, swiper := false,
    readyListeners := 0, calls := [], effects := .skip }

/-- Issue the effects `e`. -/
def World.emit (w : World) (e : Eff) : World :=
  { w with effects := .seq w.effects e }

/-- Result of running statements that may throw: the state reached, and the error if
one was thrown and not caught. -/
structure Outcome where
  world : World
  thrown : Option String

/-- Sequencing of statements: after a throw the rest is not run. -/
def Outcome.andThen (r : Outcome) (next : World → Outcome) : Outcome :=
  match r.thrown with
  | some _ => r
  | none => next r.world

/-- The `try` block of `initLocomotiveScroll`. -/
def initLocomotiveScrollTry (h : Host) (w : World) : Outcome :=
  match h.locomotiveScroll with
  | .undefined => ⟨w, none⟩
  | .ctorThrows => ⟨w, some "LocomotiveScroll constructor"⟩
  | .onThrows => ⟨{ w with scroll := true }, some "LocomotiveScroll on"⟩
  | .works =>
    ⟨({ w with scroll := true }).emit (.atom (.listen .scroll "scroll" .handleScrollProgress)),
      none⟩

/-- Method `initLocomotiveScroll()`. -/
def initLocomotiveScroll (h : Host) (w : World) : Outcome :=
  let r := initLocomotiveScrollTry h w
  match r.thrown with
  | some _ => ⟨r.world.emit (.atom (.warn "Locomotive Scroll initialization failed:")), none⟩
  | none => r

/-- The `try` block of `initSwiperAnimation`. -/
def initSwiperAnimationTry (h : Host) (w : World) : Outcome :=
  match h.swiper with
  | .undefined => ⟨w, none⟩
  | lib =>
    if h.dom.swiperContainer then
      match lib with
      | .ctorThrows => ⟨w, some "Swiper constructor"⟩
      | .onThrows => ⟨{ w with swiper := true }, some "Swiper on"⟩
      | _ =>
        ⟨({ w with swiper := true }).emit
            (.atom (.listen .swiper "slideChange" .animateSlideContent)), none⟩
    else ⟨w, none⟩

/-- Method `initSwiperAnimation()`. -/
def initSwiperAnimation (h : Host) (w : World) : Outcome :=
  let r := initSwiperAnimationTry h w
  match r.thrown with
  | some _ => ⟨r.world.emit (.atom (.warn "Swiper initialization failed:")), none⟩
  | none => r

/-- Enter an init step. -/
def World.enter (w : World) (step : InitStep) : World :=
  { w with calls := w.calls ++ [step] }

/-- The callback `init` hands to `waitForDOM`. -/
def initCallback (h : Host) (w : World) : Outcome :=
  (initLocomotiveScroll h (w.enter .initLocomotiveScroll)).andThen fun w =>
  (initSwiperAnimation h (w.enter .initSwiperAnimation)).andThen fun w =>
  (Outcome.mk ((w.enter .initPage4Animation).emit (initPage4Animation h.dom)) none).andThen fun w =>
  (Outcome.mk ((w.enter .initMenuAnimation).emit (initMenuAnimation h.dom)) none).andThen fun w =>
  (Outcome.mk ((w.enter .initLoaderAnimation).emit (initLoaderAnimation w.loader h.dom))
    none).andThen fun w =>
  (Outcome.mk ((w.enter .initScrollTriggers).emit (initScrollTriggers h.dom)) none).andThen fun w =>
  ⟨{ w with isInitialized := true }, none⟩

/-- Method `waitForDOM(callback)` for the callback of `init`. -/
def waitForDOM (h : Host) (w : World) : Outcome :=
  if h.loading then ⟨{ w with readyListeners := w.readyListeners + 1 }, none⟩
  else initCallback h w

/-- Method `init()`. -/
def init (h : Host) (w : World) : Outcome :=
  if w.isInitialized then ⟨w, none⟩
  else waitForDOM h w

/-- Run `n` registered copies of the callback of `init`, one after the other. -/
def runReadyListeners (h : Host) : Nat → World → World
  | 0, w => w
  | n + 1, w => runReadyListeners h n (initCallback h w).world

/-- The document fires `DOMContentLoaded`: every listener `waitForDOM` added runs. -/
def domContentLoaded (h : Host) (w : World) : World :=
  runReadyListeners h w.readyListeners w

/-- Two calls of `init()` in a row; when the document was still loading,
`DOMContentLoaded` follows them. -/
def initTwice (h : Host) (w : World) : World :=
  let w2 := ((init h w).andThen (init h)).world
  if h.loading then domContentLoaded h w2 else w2

/-- The six init steps in the order of the callback of `init`. -/
def InitStep.inOrder : List InitStep :=
  [.initLocomotiveScroll, .initSwiperAnimation, .initPage4Animation, .initMenuAnimation,
   .initLoaderAnimation, .initScrollTriggers]

/-- The sample page while the document is still loading, both libraries working. -/
def loadingHost : Host :=
  { dom := samplePage, loading := true, locomotiveScroll := .works, swiper := .works }

/-- The sample page once the document is loaded, both libraries working. -/
def loadedHost : Host :=
  { dom := samplePage, loading := false, locomotiveScroll := .works, swiper := .works }

/-- The sample page, loaded, with no scroll library and a carousel library whose
constructor throws. -/
def brokenLibrariesHost : Host :=
  { dom := samplePage, loading := false, locomotiveScroll := .undefined,
    swiper := .ctorThrows }

/-- How often an init step was run. -/
def World.runs (w : World) (step : InitStep) : Nat :=
  w.calls.count step

/-- The listeners registered in a schedule for one source and event. -/
def listenersOn (src : Source) (event : String) (sched : List (Nat × Atom)) : Nat :=
  (sched.filter fun e =>
    match e.2 with
    | .listen s ev _ => decide (s = src ∧ ev = event)
    | _ => false).length

/-! ## Schedules of blocks and loops -/

@[simp]
theorem stamps_skip (t : Nat) : stamps t .skip = [] := rfl

@[simp]
theorem stamps_atom (t : Nat) (a : Atom) : stamps t (.atom a) = [(t, a)] := rfl

@[simp]
theorem stamps_seq (t : Nat) (a b : Eff) :
    stamps t (.seq a b) = stamps t a ++ stamps t b := rfl

@[simp]
theorem stamps_setTimeout (t d : Nat) (cb : Eff) :
    stamps t (.setTimeout d cb) = stamps (t + d) cb := rfl

@[simp]
theorem stamps_setStyle (t : Nat) (x : Target) (p : StyleProp) (s : String) :
    stamps t (setStyle x p s) = [(t, .style x p (.lit s))] := rfl

@[simp]
theorem all_nil : Eff.all [] = .skip := rfl

@[simp]
theorem all_cons (e : Eff) (es : List Eff) :
    Eff.all (e :: es) = .seq e (Eff.all es) := rfl

@[simp]
theorem timeline_skip (t : Nat) : timeline t .skip = [] := rfl

theorem pendingTimers_append (l1 l2 : List (Nat × Eff)) :
    pendingTimers (l1 ++ l2) = pendingTimers l1 + pendingTimers l2 := by
  simp [pendingTimers]

theorem pendingTimers_exec (t : Nat) (e : Eff) : pendingTimers (exec t e).2 = e.timers := by
  induction e generalizing t with
  | skip => rfl
  | atom a => rfl
  | seq a b iha ihb => simp [exec, Eff.timers, pendingTimers_append, iha, ihb]
  | setTimeout d cb _ => simp [exec, Eff.timers, pendingTimers]

/-- The effects of a task are those of its statements and those of the timers it
sets. -/
theorem mem_stamps_exec (x : Nat × Atom) (t : Nat) (e : Eff) :
    x ∈ stamps t e ↔ x ∈ (exec t e).1 ∨ ∃ tm ∈ (exec t e).2, x ∈ stamps tm.1 tm.2 := by
  induction e generalizing t with
  | skip => simp [exec]
  | atom a => simp [exec]
  | seq a b iha ihb =>
    simp only [stamps_seq, List.mem_append, iha, ihb, exec]
    constructor
    · rintro ((h | ⟨tm, htm, h⟩) | (h | ⟨tm, htm, h⟩))
      · exact Or.inl (Or.inl h)
      · exact Or.inr ⟨tm, Or.inl htm, h⟩
      · exact Or.inl (Or.inr h)
      · exact Or.inr ⟨tm, Or.inr htm, h⟩
    · rintro ((h | h) | ⟨tm, htm | htm, h⟩)
      · exact Or.inl (Or.inl h)
      · exact Or.inr (Or.inl h)
      · exact Or.inl (Or.inr ⟨tm, htm, h⟩)
      · exact Or.inr (Or.inr ⟨tm, htm, h⟩)
  | setTimeout d cb _ => simp [exec]

theorem pickNext_eq_none (l : List (Nat × Eff)) (h : pickNext l = none) : l = [] := by
  cases l with
  | nil => rfl
  | cons tm rest =>
    cases hp : pickNext rest with
    | none => simp [pickNext, hp] at h
    | some found =>
      simp only [pickNext, hp] at h
      split_ifs at h

/-- The timer picked and the timers left are the pending timers. -/
theorem pickNext_eq_some (l : List (Nat × Eff)) (tm : Nat × Eff) (rest : List (Nat × Eff))
    (h : pickNext l = some (tm, rest)) :
    (∀ y, y ∈ l ↔ y = tm ∨ y ∈ rest) ∧
      pendingTimers l = 1 + tm.2.timers + pendingTimers rest := by
  induction l generalizing tm rest with
  | nil => simp [pickNext] at h
  | cons hd tl ih =>
    simp only [pickNext] at h
    split at h
    · next hnone =>
      have htl := pickNext_eq_none tl hnone
      subst htl
      simp only [Option.some.injEq, Prod.mk.injEq] at h
      obtain ⟨rfl, rfl⟩ := h
      simp [pendingTimers]
    · next best others hsome =>
      obtain ⟨hmem, hwork⟩ := ih best others hsome
      split_ifs at h
      · simp only [Option.some.injEq, Prod.mk.injEq] at h
        obtain ⟨rfl, rfl⟩ := h
        simp [pendingTimers]
      · simp only [Option.some.injEq, Prod.mk.injEq] at h
        obtain ⟨rfl, rfl⟩ := h
        constructor
        · intro y
          simp only [List.mem_cons, hmem]
          tauto
        · have hcons : ∀ (a : Nat × Eff) (l : List (Nat × Eff)),
              pendingTimers (a :: l) = 1 + a.2.timers + pendingTimers l := by
            intro a l; simp [pendingTimers]
          rw [hcons, hcons, hwork]
          omega

/-- With fuel for every callback, the event loop executes exactly the effects of the
pending timers. -/
theorem mem_eventLoop (x : Nat × Atom) (fuel : Nat) (pending : List (Nat × Eff))
    (hfuel : pendingTimers pending ≤ fuel) :
    x ∈ eventLoop fuel pending ↔ ∃ tm ∈ pending, x ∈ stamps tm.1 tm.2 := by
  induction fuel generalizing pending with
  | zero =>
    cases pending with
    | nil => simp [eventLoop]
    | cons a l => simp [pendingTimers] at hfuel
  | succ fuel ih =>
    simp only [eventLoop]
    split
    · next hnone =>
      have := pickNext_eq_none pending hnone
      subst this
      simp
    · next tm rest hsome =>
      obtain ⟨hmem, hwork⟩ := pickNext_eq_some pending tm rest hsome
      have hfuel2 : pendingTimers (rest ++ (exec tm.1 tm.2).2) ≤ fuel := by
        rw [pendingTimers_append, pendingTimers_exec]
        omega
      simp only [List.mem_append, ih _ hfuel2]
      constructor
      · rintro (h | ⟨tm2, htm2 | htm2, h⟩)
        · exact ⟨tm, (hmem tm).2 (Or.inl rfl), (mem_stamps_exec x _ _).2 (Or.inl h)⟩
        · exact ⟨tm2, (hmem tm2).2 (Or.inr htm2), h⟩
        · exact ⟨tm, (hmem tm).2 (Or.inl rfl), (mem_stamps_exec x _ _).2 (Or.inr ⟨tm2, htm2, h⟩)⟩
      · rintro ⟨tm2, htm2, h⟩
        rcases (hmem tm2).1 htm2 with rfl | hrest
        · rcases (mem_stamps_exec x _ _).1 h with h1 | ⟨tm3, htm3, h3⟩
          · exact Or.inl h1
          · exact Or.inr ⟨tm3, Or.inr htm3, h3⟩
        · exact Or.inr ⟨tm2, Or.inl hrest, h⟩

/-- The schedule of `e` holds exactly the effects of `e`, each with its time: no
callback is left unrun. -/
@[simp]
theorem mem_timeline (x : Nat × Atom) (t : Nat) (e : Eff) :
    x ∈ timeline t e ↔ x ∈ stamps t e := by
  rw [mem_stamps_exec, timeline, List.mem_append,
    mem_eventLoop x e.timers _ (by rw [pendingTimers_exec])]

theorem mem_stamps_forEachFrom {α : Type} (body : α → Nat → Eff) (t : Nat)
    (x : Nat × Atom) (els : List α) (start : Nat) :
    x ∈ stamps t (Eff.forEachFrom body start els) ↔
      ∃ k el, els[k]? = some el ∧ x ∈ stamps t (body el (start + k)) := by
  induction els generalizing start with
  | nil => simp [Eff.forEachFrom]
  | cons el els ih =>
    simp only [Eff.forEachFrom, stamps_seq, List.mem_append, ih]
    constructor
    · rintro (hx | ⟨k, el2, hk, hx⟩)
      · exact ⟨0, el, by simp, by simpa using hx⟩
      · exact ⟨k + 1, el2, by simpa using hk, by
          have : start + 1 + k = start + (k + 1) := by omega
          rw [← this]; exact hx⟩
    · rintro ⟨k, el2, hk, hx⟩
      cases k with
      | zero =>
        simp at hk
        subst hk
        exact Or.inl (by simpa using hx)
      | succ k =>
        refine Or.inr ⟨k, el2, by simpa using hk, ?_⟩
        have : start + 1 + k = start + (k + 1) := by omega
        rw [this]; exact hx

theorem mem_stamps_forEachOf {α : Type} (body : α → Nat → Eff) (t : Nat)
    (x : Nat × Atom) (els : List α) :
    x ∈ stamps t (Eff.forEachOf els body) ↔
      ∃ k el, els[k]? = some el ∧ x ∈ stamps t (body el k) := by
  simp [Eff.forEachOf, mem_stamps_forEachFrom]

theorem mem_stamps_forEach (body : Nat → Eff) (t : Nat) (x : Nat × Atom) (n : Nat) :
    x ∈ stamps t (Eff.forEach n body) ↔ ∃ k, k < n ∧ x ∈ stamps t (body k) := by
  simp only [Eff.forEach, mem_stamps_forEachOf]
  constructor
  · rintro ⟨k, el, hk, hx⟩
    refine ⟨k, ?_, hx⟩
    have := List.getElem?_eq_some.1 hk
    obtain ⟨hlt, -⟩ := this
    simpa using hlt
  · rintro ⟨k, hk, hx⟩
    exact ⟨k, (), by simp [List.getElem?_replicate, hk], hx⟩

/-- The ticks of `typeWriter` assign no style. -/
theorem style_not_mem_typeWriter (x : Target) (text : JSText) (speed t t0 : Nat)
    (y : Target) (p : StyleProp) (v : Val) :
    (t, Atom.style y p v) ∉ stamps t0 (typeWriter x text speed) := by
  simp only [typeWriter, stamps_seq, stamps_atom, List.mem_append, List.mem_singleton,
    mem_stamps_forEach, stamps_setTimeout, typeWriterTickEff, not_or, not_exists, not_and]
  refine ⟨by simp, ?_⟩
  intro k _
  split_ifs <;> simp

/-! ## Running a schedule -/

theorem mem_insertByTime (e x : Nat × Atom) (l : List (Nat × Atom)) :
    x ∈ insertByTime e l ↔ x = e ∨ x ∈ l := by
  induction l with
  | nil => simp [insertByTime]
  | cons y ys ih =>
    simp only [insertByTime]
    split_ifs
    · simp
    · simp only [List.mem_cons, ih]
      tauto

theorem mem_sortByTime (x : Nat × Atom) (l : List (Nat × Atom)) :
    x ∈ sortByTime l ↔ x ∈ l := by
  induction l with
  | nil => simp [sortByTime]
  | cons y ys ih => simp [sortByTime, mem_insertByTime, ih]

theorem pairwise_insertByTime (e : Nat × Atom) (l : List (Nat × Atom))
    (hl : l.Pairwise (fun a b => a.1 ≤ b.1)) :
    (insertByTime e l).Pairwise (fun a b => a.1 ≤ b.1) := by
  induction l with
  | nil => simp [insertByTime]
  | cons y ys ih =>
    rw [List.pairwise_cons] at hl
    simp only [insertByTime]
    split_ifs with hle
    · refine List.pairwise_cons.2 ⟨?_, List.pairwise_cons.2 hl⟩
      intro b hb
      rcases List.mem_cons.1 hb with rfl | hb
      · exact hle
      · exact Nat.le_trans hle (hl.1 b hb)
    · refine List.pairwise_cons.2 ⟨?_, ih hl.2⟩
      intro b hb
      rcases (mem_insertByTime e b ys).1 hb with rfl | hb
      · omega
      · exact hl.1 b hb

theorem pairwise_sortByTime (l : List (Nat × Atom)) :
    (sortByTime l).Pairwise (fun a b => a.1 ≤ b.1) := by
  induction l with
  | nil => simp [sortByTime]
  | cons y ys ih => exact pairwise_insertByTime y _ ih

/-- A property whose every assignment in the list gives `v`, and that holds `v`
already, holds `v` afterwards. -/
theorem foldl_applyAtom_same (l : List (Nat × Atom)) (x : Target) (p : StyleProp) (v : Val)
    (hall : ∀ t w, (t, Atom.style x p w) ∈ l → w = v) (s : Styles) (hs : s x p = some v) :
    l.foldl (fun st e => applyAtom st e.2) s x p = some v := by
  induction l generalizing s with
  | nil => simpa using hs
  | cons e es ih =>
    simp only [List.foldl_cons]
    apply ih
    · intro t w hw
      exact hall t w (List.mem_cons_of_mem _ hw)
    · obtain ⟨t, a⟩ := e
      cases a with
      | style y q w =>
        simp only [applyAtom]
        split_ifs with hyq
        · obtain ⟨rfl, rfl⟩ := hyq
          rw [hall t w (List.mem_cons_self _ _)]
        · exact hs
      | _ => simpa [applyAtom] using hs

/-- In a time-ordered list, an assignment of `v` that is later than every assignment
of another value to the same property decides the final value. -/
theorem foldl_applyAtom_last (l : List (Nat × Atom)) (hl : l.Pairwise (fun a b => a.1 ≤ b.1))
    (tw : Nat) (x : Target) (p : StyleProp) (v : Val)
    (hmem : (tw, Atom.style x p v) ∈ l)
    (hlate : ∀ t w, (t, Atom.style x p w) ∈ l → w = v ∨ t < tw) (s : Styles) :
    l.foldl (fun st e => applyAtom st e.2) s x p = some v := by
  induction l generalizing s with
  | nil => simp at hmem
  | cons e es ih =>
    rw [List.pairwise_cons] at hl
    simp only [List.foldl_cons]
    by_cases hin : (tw, Atom.style x p v) ∈ es
    · exact ih hl.2 hin (fun t w hw => hlate t w (List.mem_cons_of_mem _ hw)) _
    · have he : e = (tw, Atom.style x p v) := by
        rcases List.mem_cons.1 hmem with h | h
        · exact h.symm
        · exact absurd h hin
      subst he
      apply foldl_applyAtom_same
      · intro t w hw
        rcases hlate t w (List.mem_cons_of_mem _ hw) with h | h
        · exact h
        · have := hl.1 _ hw
          simp only at this
          omega
      · simp [applyAtom]

/-- Final value of a property after a schedule has run: the value of an assignment
that is later than every assignment of another value to that property. -/
theorem runAll_last (sched : List (Nat × Atom)) (tw : Nat) (x : Target) (p : StyleProp)
    (v : Val) (hmem : (tw, Atom.style x p v) ∈ sched)
    (hlate : ∀ t w, (t, Atom.style x p w) ∈ sched → w = v ∨ t < tw) (s : Styles) :
    runAll sched s x p = some v :=
  foldl_applyAtom_last _ (pairwise_sortByTime sched) tw x p v
    ((mem_sortByTime _ _).2 hmem)
    (fun t w hw => hlate t w ((mem_sortByTime _ _).1 hw)) s

/-! ## Menu -/

theorem mem_openThenClose_fullScr_transform (dom : Dom) (tOpen tClose t : Nat) (w : Val) :
    (t, Atom.style .fullScr .transform w) ∈ openThenClose dom tOpen tClose ↔
      (t = tOpen ∧ w = .lit "translateY(0%)") ∨ (t = tClose ∧ w = .lit "translateY(-100%)") := by
  cases hn : dom.navImage <;>
    simp [openThenClose, toggleMenu, animateMenuItems, mem_stamps_forEach, hn]

theorem mem_openThenClose_item_opacity (dom : Dom) (tOpen tClose t i : Nat) (w : Val) :
    (t, Atom.style (.menuItem i) .opacity w) ∈ openThenClose dom tOpen tClose ↔
      i < dom.menuItems ∧
        ((t = tOpen ∧ w = .lit "0") ∨ (t = tOpen + (i * 100 + 300) ∧ w = .lit "1") ∨
          (t = tClose ∧ w = .lit "0")) := by
  cases hn : dom.navImage <;>
    simp [openThenClose, toggleMenu, animateMenuItems, mem_stamps_forEach, hn] <;>
    · constructor
      · rintro (⟨k, hk, h | h⟩ | ⟨k, hk, h⟩) <;> obtain ⟨h1, rfl, h3⟩ := h
        · exact ⟨hk, Or.inl ⟨h1, h3⟩⟩
        · exact ⟨hk, Or.inr (Or.inl ⟨h1, h3⟩)⟩
        · exact ⟨hk, Or.inr (Or.inr ⟨h1, h3⟩)⟩
      · rintro ⟨hi, h | h | h⟩
        · exact Or.inl ⟨i, hi, Or.inl ⟨h.1, rfl, h.2⟩⟩
        · exact Or.inl ⟨i, hi, Or.inr ⟨h.1, rfl, h.2⟩⟩
        · exact Or.inr ⟨i, hi, h.1, rfl, h.2⟩

/-- C2 (amended).  When the menu is opened at `tOpen` and closed at a later time
`tClose`, then after all timers have run the panel is closed (`translateY(-100%)`),
but the item timers of the open are not cancelled: for every menu item whose timer
(due `300 + 100 * index` ms after the open) had not fired at the close, the timer
still executes, after the close, and the item ends at opacity `1`. -/
theorem menu_open_then_close_leaves_items_visible (dom : Dom) (tOpen tClose : Nat)
    (hlater : tOpen < tClose) (s : Styles) :
    runAll (openThenClose dom tOpen tClose) s .fullScr .transform
        = some (.lit "translateY(-100%)") ∧
    ∀ i, i < dom.menuItems → tClose < tOpen + (300 + 100 * i) →
      (tOpen + (300 + 100 * i), Atom.style (.menuItem i) .opacity (.lit "1"))
          ∈ timeline tOpen (toggleMenu dom false) ∧
      runAll (openThenClose dom tOpen tClose) s (.menuItem i) .opacity = some (.lit "1") := by
  constructor
  · apply runAll_last _ tClose
    · exact (mem_openThenClose_fullScr_transform _ _ _ _ _).2 (Or.inr ⟨rfl, rfl⟩)
    · intro t w hw
      rcases (mem_openThenClose_fullScr_transform _ _ _ _ _).1 hw with ⟨rfl, -⟩ | ⟨-, rfl⟩
      · exact Or.inr hlater
      · exact Or.inl rfl
  · intro i hi hpending
    have hcomm : tOpen + (300 + 100 * i) = tOpen + (i * 100 + 300) := by omega
    constructor
    · cases hn : dom.navImage <;>
        simp [toggleMenu, animateMenuItems, mem_stamps_forEach, hn, hi, hcomm]
    · apply runAll_last _ (tOpen + (300 + 100 * i))
      · exact (mem_openThenClose_item_opacity _ _ _ _ _ _).2 ⟨hi, Or.inr (Or.inl ⟨hcomm, rfl⟩)⟩
      · intro t w hw
        rcases (mem_openThenClose_item_opacity _ _ _ _ _ _).1 hw with
          ⟨-, ⟨rfl, -⟩ | ⟨-, rfl⟩ | ⟨rfl, -⟩⟩
        · exact Or.inr (by omega)
        · exact Or.inl rfl
        · exact Or.inr hpending

/-- C2, witness: three menu items, opened at `0` and closed at `100`. -/
theorem menu_open_then_close_leaves_items_visible_witness :
    runAll (openThenClose samplePage 0 100) Styles.empty .fullScr .transform
        = some (.lit "translateY(-100%)") ∧
    runAll (openThenClose samplePage 0 100) Styles.empty (.menuItem 2) .opacity
        = some (.lit "1") :=
  ⟨(menu_open_then_close_leaves_items_visible samplePage 0 100 (by decide) Styles.empty).1,
   ((menu_open_then_close_leaves_items_visible samplePage 0 100 (by decide) Styles.empty).2
      2 (by decide) (by decide)).2⟩

/-- C2, counterexample: one menu item, menu opened at `0` and closed at `100`, before
the item timer due at `300`.  After all timers have run the item is not at opacity `0`
but at opacity `1`, assigned at `300` by the timer of the open. -/
theorem menu_open_then_close_not_closed :
    ¬ (runAll (openThenClose oneItemMenu 0 100) Styles.empty (.menuItem 0) .opacity
        = some (.lit "0")) ∧
    runAll (openThenClose oneItemMenu 0 100) Styles.empty (.menuItem 0) .opacity
        = some (.lit "1") ∧
    (300, Atom.style (.menuItem 0) .opacity (.lit "1"))
        ∈ timeline 0 (toggleMenu oneItemMenu false) := by
  decide

/-! ## Scroll parallax -/

theorem mem_timeline_handleScrollProgress (stringToNumber : String → JSNum) (dom : Dom)
    (scrollY : JSNum) (t t1 i : Nat) (w : Val) :
    (t1, Atom.style (.parallax i) .transform w)
        ∈ timeline t (handleScrollProgress stringToNumber dom scrollY) ↔
      ∃ attr, dom.parallax[i]? = some attr ∧ t1 = t ∧
        w = .translateYPx
          ((scrollY.mul (((JSVal.str attr).or (.number (.num 0.5))).toNumber
            stringToNumber)).neg) := by
  simp only [mem_timeline, handleScrollProgress, mem_stamps_forEachOf, stamps_atom,
    List.mem_singleton,
    Prod.mk.injEq, Atom.style.injEq, Target.parallax.injEq, true_and]
  constructor
  · rintro ⟨k, attr, hk, h1, rfl, h3⟩
    exact ⟨attr, hk, h1, h3⟩
  · rintro ⟨attr, hk, h1, h3⟩
    exact ⟨i, attr, hk, h1, rfl, h3⟩

/-- The transform `handleScrollProgress` leaves on the parallax element `i`. -/
theorem runAll_handleScrollProgress (stringToNumber : String → JSNum) (dom : Dom)
    (scrollY : JSNum) (i : Nat) (attr : String) (hel : dom.parallax[i]? = some attr)
    (t : Nat) (s : Styles) :
    runAll (timeline t (handleScrollProgress stringToNumber dom scrollY)) s
        (.parallax i) .transform
      = some (.translateYPx
          ((scrollY.mul (((JSVal.str attr).or (.number (.num 0.5))).toNumber
            stringToNumber)).neg)) := by
  apply runAll_last _ t
  · exact (mem_timeline_handleScrollProgress _ _ _ _ _ _ _).2 ⟨attr, hel, rfl, rfl⟩
  · intro t1 w hw
    obtain ⟨attr2, h2, -, rfl⟩ := (mem_timeline_handleScrollProgress _ _ _ _ _ _ _).1 hw
    rw [hel] at h2
    cases h2
    exact Or.inl rfl

/-- Numerator and denominator of a fraction in lowest terms. -/
theorem num_den_of_coprime (a b : ℕ) (hb : 0 < b) (hco : Nat.Coprime a b) :
    ((a : ℚ) / (b : ℚ)).num.natAbs = a ∧ ((a : ℚ) / (b : ℚ)).den = b := by
  have h1 := Rat.num_div_eq_of_coprime (a := (a : ℤ)) (b := (b : ℤ)) (by exact_mod_cast hb)
    (by simpa using hco)
  have h2 := Rat.den_div_eq_of_coprime (a := (a : ℤ)) (b := (b : ℤ)) (by exact_mod_cast hb)
    (by simpa using hco)
  simp only [Int.cast_natCast] at h1 h2
  constructor
  · rw [h1]; simp
  · exact_mod_cast h2

/-- Rounding a positive fraction in lowest terms goes through `roundParts`. -/
theorem roundToDouble_of_frac (a b r : ℕ) (k : ℤ) (ha : 0 < a) (hb : 0 < b)
    (hco : Nat.Coprime a b) (hparts : roundParts a b = some (r, k)) :
    roundToDouble ((a : ℚ) / (b : ℚ)) = .num ((r : ℚ) * 2 ^ k) := by
  obtain ⟨hn, hd⟩ := num_den_of_coprime a b hb hco
  have hpos : (0 : ℚ) < (a : ℚ) / (b : ℚ) := by positivity
  have hne : ¬ ((a : ℚ) / (b : ℚ) = 0) := ne_of_gt hpos
  have hnn : ¬ ((a : ℚ) / (b : ℚ) < 0) := not_lt.2 hpos.le
  simp only [roundToDouble, hne, if_false, hn, hd, hparts, hnn, one_mul]

theorem roundToDouble_zero : roundToDouble 0 = .num 0 := by
  simp [roundToDouble]

/-- The product with the number zero is zero. -/
theorem mul_num_zero (y : ℚ) : (JSNum.num y).mul (.num 0) = .num 0 := by
  simp [JSNum.mul, roundToDouble]

theorem mul_1000_half : (JSNum.num 1000).mul (.num 0.5) = .num 500 := by
  have hq : (1000 : ℚ) * 0.5 = ((500 : ℕ) : ℚ) / ((1 : ℕ) : ℚ) := by norm_num
  have h := roundToDouble_of_frac 500 1 (500 * 2 ^ 44) (-44) (by decide) (by decide)
    (by decide) (by decide)
  simp only [JSNum.mul, hq, h]
  norm_num

theorem decimalToNumber_half : decimalToNumber "0.5" = .num 0.5 := by
  have hne : ¬ ("0.5" = "") := by decide
  have htrim : trimWhiteSpace "0.5".toList = ['0', '.', '5'] := by decide
  have hparse : parseNumeric ['0', '.', '5'] = some (false, some (5, -1)) := by decide
  have hq : ((5 : ℕ) : ℚ) * 10 ^ (-1 : ℤ) = ((1 : ℕ) : ℚ) / ((2 : ℕ) : ℚ) := by norm_num
  have h := roundToDouble_of_frac 1 2 (2 ^ 52) (-53) (by decide) (by decide)
    (by decide) (by decide)
  simp only [decimalToNumber, if_neg hne, htrim, hparse, hq, h]
  norm_num

theorem decimalToNumber_tenth :
    decimalToNumber "0.1" = .num (3602879701896397 / 36028797018963968) := by
  have hne : ¬ ("0.1" = "") := by decide
  have htrim : trimWhiteSpace "0.1".toList = ['0', '.', '1'] := by decide
  have hparse : parseNumeric ['0', '.', '1'] = some (false, some (1, -1)) := by decide
  have hq : ((1 : ℕ) : ℚ) * 10 ^ (-1 : ℤ) = ((1 : ℕ) : ℚ) / ((10 : ℕ) : ℚ) := by norm_num
  have h := roundToDouble_of_frac 1 10 7205759403792794 (-56) (by decide) (by decide)
    (by decide) (by decide)
  simp only [decimalToNumber, if_neg hne, htrim, hparse, hq, h]
  norm_num

theorem mul_3_tenth :
    (JSNum.num 3).mul (.num (3602879701896397 / 36028797018963968))
      = .num (1351079888211149 / 4503599627370496) := by
  have hq : (3 : ℚ) * (3602879701896397 / 36028797018963968)
      = ((10808639105689191 : ℕ) : ℚ) / ((36028797018963968 : ℕ) : ℚ) := by norm_num
  have h := roundToDouble_of_frac 10808639105689191 36028797018963968 5404319552844596 (-54)
    (by decide) (by decide) (by norm_num) (by decide)
  simp only [JSNum.mul, hq, h]
  norm_num

theorem decimalToNumber_zero : decimalToNumber "0" = .num 0 := by
  have hne : ¬ ("0" = "") := by decide
  have htrim : trimWhiteSpace "0".toList = ['0'] := by decide
  have hparse : parseNumeric ['0'] = some (false, some (0, 0)) := by decide
  simp only [decimalToNumber, if_neg hne, htrim, hparse]
  simp [roundToDouble]

/-- C3.  For every scroll position `y` and every parallax element, after
`handleScrollProgress` the element's transform is `translateY(${yPos}px)` with `yPos`
exactly `-(y * f)`, the product being the `*` of the language (the double nearest to
the exact product) and `f` the number the element's non-empty `data-parallax` value
converts to; `f` is `0.5` when the value is empty.  The offset is a function of `y`
and `f` only. -/
theorem parallax_offset_is_neg_y_times_factor (stringToNumber : String → JSNum) (dom : Dom)
    (y : JSNum) (i : Nat) (attr : String) (hel : dom.parallax[i]? = some attr)
    (t : Nat) (s : Styles) :
    (∀ f, attr ≠ "" → stringToNumber attr = f →
      runAll (timeline t (handleScrollProgress stringToNumber dom y)) s
        (.parallax i) .transform = some (.translateYPx (y.mul f).neg)) ∧
    (attr = "" →
      runAll (timeline t (handleScrollProgress stringToNumber dom y)) s
        (.parallax i) .transform = some (.translateYPx (y.mul (.num 0.5)).neg)) := by
  rw [runAll_handleScrollProgress stringToNumber dom y i attr hel t s]
  constructor
  · intro f hne hf
    simp [JSVal.or, JSVal.toBoolean, JSVal.toNumber, hne, hf]
  · intro he
    simp [JSVal.or, JSVal.toBoolean, JSVal.toNumber, he]

/-- C3, witness: scroll position `1000` and `data-parallax="0.5"` give the offset
`-500`; scroll position `3` and `data-parallax="0.1"` give the offset
`-0.30000000000000004`, the double `-1351079888211149 / 2 ^ 52`. -/
theorem parallax_offset_is_neg_y_times_factor_witness :
    runAll (timeline 0 (handleScrollProgress decimalToNumber samplePage (.num 1000)))
        Styles.empty (.parallax 0) .transform = some (.translateYPx (.num (-500))) ∧
    runAll (timeline 0 (handleScrollProgress decimalToNumber samplePage (.num 3)))
        Styles.empty (.parallax 3) .transform
      = some (.translateYPx (.num (-(1351079888211149 / 4503599627370496)))) := by
  have h := (parallax_offset_is_neg_y_times_factor decimalToNumber samplePage (.num 1000) 0
    "0.5" rfl 0 Styles.empty).1 (.num 0.5) (by decide) decimalToNumber_half
  have h3 := (parallax_offset_is_neg_y_times_factor decimalToNumber samplePage (.num 3) 3
    "0.1" rfl 0 Styles.empty).1 _ (by decide) decimalToNumber_tenth
  rw [h, h3, mul_1000_half, mul_3_tenth]
  exact ⟨rfl, rfl⟩

/-- C9 (amended).  For a parallax element whose `data-parallax` value is the string
`"0"`, the expression `el.dataset.parallax || 0.5` keeps `"0"` (a non-empty string is
truthy) and does not substitute `0.5`; when `"0"` converts to the number `0`, for every
scroll position `y` the element's offset is `-(y * 0) = 0`.  The substitution happens
for the empty value only. -/
theorem parallax_zero_string_is_kept (stringToNumber : String → JSNum)
    (hzero : stringToNumber "0" = .num 0) (dom : Dom) (i : Nat)
    (hel : dom.parallax[i]? = some "0") (y : ℚ) (t : Nat) (s : Styles) :
    (JSVal.str "0").or (.number (.num 0.5)) = .str "0" ∧
    (JSVal.str "").or (.number (.num 0.5)) = .number (.num 0.5) ∧
    runAll (timeline t (handleScrollProgress stringToNumber dom (.num y))) s
        (.parallax i) .transform = some (.translateYPx (.num 0)) := by
  refine ⟨by decide, by simp [JSVal.or, JSVal.toBoolean], ?_⟩
  rw [runAll_handleScrollProgress stringToNumber dom (.num y) i "0" hel t s]
  have hor : (JSVal.str "0").or (.number (.num 0.5)) = .str "0" := by decide
  simp [hor, JSVal.toNumber, hzero, mul_num_zero, JSNum.neg]

/-- C9, witness: the third parallax element of the sample page has
`data-parallax="0"`. -/
theorem parallax_zero_string_is_kept_witness :
    runAll (timeline 0 (handleScrollProgress decimalToNumber samplePage (.num 1000)))
        Styles.empty (.parallax 2) .transform = some (.translateYPx (.num 0)) :=
  (parallax_zero_string_is_kept decimalToNumber decimalToNumber_zero samplePage 2 rfl
    1000 0 Styles.empty).2.2

/-- C9, counterexample: with `data-parallax="0"` and scroll position `1000` the offset
is `0`, not `-(1000 * 0.5) = -500`. -/
theorem parallax_zero_string_not_replaced :
    runAll (timeline 0 (handleScrollProgress decimalToNumber samplePage (.num 1000)))
        Styles.empty (.parallax 2) .transform
      ≠ some (.translateYPx (.num (-(1000 * 0.5)))) := by
  rw [runAll_handleScrollProgress decimalToNumber samplePage (.num 1000) 2 "0" rfl 0
    Styles.empty]
  have hor : (JSVal.str "0").or (.number (.num 0.5)) = .str "0" := by decide
  simp [hor, JSVal.toNumber, decimalToNumber_zero, mul_num_zero, JSNum.neg]
  norm_num

/-! ## Loader -/

/-- C6.  With `#loader` present and the loader phase started at `t = 0`, for every
configured duration `D` the only assignment to the loader's `display` is `'none'` at
`t = D + 1000`, and each of the three style writes of the reveal step of the `k`-th
`[data-entrance]` element executes at `t = D + 1000 + 150 * k` and at no other time. -/
theorem loader_hidden_then_entrance_staggered (config : LoaderConfig) (dom : Dom)
    (loader : Loader) (h : dom.loader = some loader) :
    (∀ t v, (t, Atom.style .loader .display v) ∈ timeline 0 (initLoaderAnimation config dom) ↔
        (t = config.duration + 1000 ∧ v = .lit "none")) ∧
    (∀ k, k < dom.entrance → ∀ t,
      ∀ a ∈ [Atom.style (.entrance k) .transition
                (.lit "all 0.8s cubic-bezier(0.77, 0, 0.175, 1)"),
              Atom.style (.entrance k) .opacity (.lit "1"),
              Atom.style (.entrance k) .transform (.lit "translateY(0)")],
        ((t, a) ∈ timeline 0 (initLoaderAnimation config dom) ↔
          t = config.duration + 1000 + 150 * k)) := by
  obtain ⟨progressBar, loaderText⟩ := loader
  constructor
  · intro t v
    cases progressBar <;> cases loaderText <;>
      simp [initLoaderAnimation, h, hideLoader, triggerPageEntrance, mem_stamps_forEach,
        style_not_mem_typeWriter]
  · intro k hk t a ha
    simp only [List.mem_cons, List.mem_singleton, List.not_mem_nil, or_false] at ha
    have key : k * 150 = 150 * k := Nat.mul_comm _ _
    rcases ha with rfl | rfl | rfl <;> cases progressBar <;> cases loaderText <;>
      simp [initLoaderAnimation, h, hideLoader, triggerPageEntrance, mem_stamps_forEach,
        style_not_mem_typeWriter, hk, key]

/-- C6, witness: the sample page with the default duration `4200`: the loader is
hidden at `5200` and the third `[data-entrance]` element is revealed at `5500`. -/
theorem loader_hidden_then_entrance_staggered_witness :
    (5200, Atom.style .loader .display (.lit "none"))
        ∈ timeline 0 (initLoaderAnimation defaultLoaderConfig samplePage) ∧
    (5500, Atom.style (.entrance 2) .opacity (.lit "1"))
        ∈ timeline 0 (initLoaderAnimation defaultLoaderConfig samplePage) :=
  ⟨((loader_hidden_then_entrance_staggered defaultLoaderConfig samplePage _ rfl).1 5200 _).2
      ⟨rfl, rfl⟩,
   ((loader_hidden_then_entrance_staggered defaultLoaderConfig samplePage _ rfl).2 2
      (by decide) 5500 _ (by simp)).2 rfl⟩

/-! ## typeWriter -/

theorem charAt_eq (text : JSText) (i : Nat) : charAt text i = text[i]?.toList := by
  unfold charAt
  cases text[i]? <;> rfl

theorem typeWriterRun_of_le (text : JSText) (k : Nat) (hk : k ≤ text.length) :
    typeWriterRun text k = { textContent := text.take k, i := k, timer := true } := by
  induction k with
  | zero => simp [typeWriterRun, typeWriterStart]
  | succ k ih =>
    have hlt : k < text.length := by omega
    show typeWriterTick text (typeWriterRun text k) = _
    rw [ih (by omega), List.take_succ, ← charAt_eq]
    simp only [typeWriterTick, hlt, if_true]

theorem typeWriterRun_of_gt (text : JSText) (m : Nat) (hm : text.length + 1 ≤ m) :
    typeWriterRun text m = { textContent := text, i := text.length, timer := false } := by
  induction m with
  | zero => omega
  | succ m ih =>
    by_cases hm2 : text.length + 1 ≤ m
    · simp [typeWriterRun, ih hm2, typeWriterTick]
    · have hml : m = text.length := by omega
      subst hml
      show typeWriterTick text (typeWriterRun text text.length) = _
      rw [typeWriterRun_of_le text text.length (Nat.le_refl _)]
      simp [typeWriterTick]

/-- C10.  For every text, `typeWriter` starts from the empty text; after `k` ticks with
`k ≤ text.length` the element shows the first `k` code units of `text` and the interval
is still set; after `text.length` ticks it shows `text`; tick `text.length + 1` clears
the interval, and from then on the state, and so the element's text, never changes. -/
theorem typeWriter_types_text_then_stops (text : JSText) :
    typeWriterStart.textContent = [] ∧
    (∀ k, k ≤ text.length →
      (typeWriterRun text k).textContent = text.take k ∧ (typeWriterRun text k).timer = true) ∧
    (typeWriterRun text text.length).textContent = text ∧
    (typeWriterRun text (text.length + 1)).timer = false ∧
    (∀ m, text.length + 1 ≤ m →
      typeWriterRun text m = typeWriterRun text (text.length + 1) ∧
      (typeWriterRun text m).textContent = text) := by
  refine ⟨rfl, ?_, ?_, ?_, ?_⟩
  · intro k hk
    simp [typeWriterRun_of_le text k hk]
  · simp [typeWriterRun_of_le text text.length (Nat.le_refl _)]
  · simp [typeWriterRun_of_gt text (text.length + 1) (Nat.le_refl _)]
  · intro m hm
    simp [typeWriterRun_of_gt text m hm, typeWriterRun_of_gt text (text.length + 1) (Nat.le_refl _)]

/-! ## Scroll triggers -/

theorem mem_classListAdd_of_mem (classList : List String) (token tok : String)
    (h : tok ∈ classList) : tok ∈ classListAdd classList token := by
  unfold classListAdd
  split_ifs
  · exact h
  · exact List.mem_append_left _ h

theorem mem_observerCallback_of_mem (entries : List Entry) (cls : ClassLists) (el : Nat)
    (tok : String) (h : tok ∈ cls el) : tok ∈ observerCallback cls entries el := by
  unfold observerCallback
  induction entries generalizing cls with
  | nil => simpa using h
  | cons entry rest ih =>
    simp only [List.foldl_cons]
    apply ih
    split_ifs with hi
    · show tok ∈ (if el = entry.target then classListAdd (cls el) "animate-in" else cls el)
      split_ifs
      · exact mem_classListAdd_of_mem _ _ _ h
      · exact h
    · exact h

theorem mem_observerRun_of_mem (calls : List (List Entry)) (cls : ClassLists) (el : Nat)
    (tok : String) (h : tok ∈ cls el) : tok ∈ observerRun cls calls el := by
  unfold observerRun
  induction calls generalizing cls with
  | nil => simpa using h
  | cons entries rest ih =>
    simp only [List.foldl_cons]
    exact ih _ (mem_observerCallback_of_mem entries cls el tok h)

/-- C5.  Once an observed element carries the `animate-in` marker, it carries it after
every sequence of observer callbacks, whatever entries (intersecting or not, in any
order) they report. -/
theorem reveal_marker_is_never_removed (cls : ClassLists) (el : Nat)
    (hrevealed : "animate-in" ∈ cls el) (calls : List (List Entry)) :
    "animate-in" ∈ observerRun cls calls el :=
  mem_observerRun_of_mem calls cls el "animate-in" hrevealed

/-- C5, witness: element `0` is revealed by an intersecting entry; an exit, a second
intersection and an entry of another element follow. -/
theorem reveal_marker_is_never_removed_witness :
    "animate-in" ∈ observerCallback (fun _ => []) [⟨0, true⟩] 0 ∧
    "animate-in" ∈ observerRun (observerCallback (fun _ => []) [⟨0, true⟩])
      [[⟨0, false⟩], [⟨0, true⟩, ⟨1, true⟩], [⟨0, false⟩]] 0 :=
  ⟨by decide,
   reveal_marker_is_never_removed (observerCallback (fun _ => []) [⟨0, true⟩]) 0 (by decide) _⟩

/-! ## Hover preview -/

@[simp]
theorem updateFixedImage_styles (dataImage : Option String) (s : Preview) :
    (updateFixedImage dataImage s).styles = s.styles := by
  unfold updateFixedImage
  cases dataImage with
  | none => rfl
  | some imageUrl => by_cases h : imageUrl = "" <;> simp [h]

theorem probeOnload_backgroundImage (imageUrl : String) (s : Preview) :
    (probeOnload imageUrl s).backgroundImage = some (.lit ("url(" ++ imageUrl ++ ")")) := by
  simp [probeOnload, Preview.backgroundImage, applyAtom]

/-- An event that changes the background image is the load event of a probe that
exists, and the new background image is that probe's URL. -/
theorem step_changes_backgroundImage (s : Preview) (e : PreviewEvent)
    (h : (s.step e).backgroundImage ≠ s.backgroundImage) :
    ∃ probe imageUrl, e = .load probe ∧ s.probes[probe]? = some imageUrl ∧
      (s.step e).backgroundImage = some (.lit ("url(" ++ imageUrl ++ ")")) := by
  cases e with
  | mouseenter dataImage =>
    exact absurd (by simp [Preview.step, Preview.backgroundImage]) h
  | load probe =>
    cases hp : s.probes[probe]? with
    | none => exact absurd (by simp [Preview.step, hp]) h
    | some imageUrl =>
      exact ⟨probe, imageUrl, rfl, hp, by simp [Preview.step, hp, probeOnload_backgroundImage]⟩

/-- A trace without load events leaves the background image as it is. -/
theorem run_without_load (trace : List PreviewEvent) (s : Preview)
    (hno : ∀ e ∈ trace, ∀ probe, e ≠ .load probe) :
    (s.run trace).backgroundImage = s.backgroundImage := by
  induction trace generalizing s with
  | nil => rfl
  | cons e rest ih =>
    have hrest := ih (s.step e) (fun e2 h2 => hno e2 (List.mem_cons_of_mem _ h2))
    simp only [Preview.run, List.foldl_cons] at hrest ⊢
    rw [hrest]
    by_contra hne
    obtain ⟨probe, _, he, -, -⟩ := step_changes_backgroundImage s e hne
    exact hno e (List.mem_cons_self _ _) probe he

/-- Probes are never discarded: a probe keeps its position and URL. -/
theorem probes_step (s : Preview) (e : PreviewEvent) (probe : Nat) (imageUrl : String)
    (h : s.probes[probe]? = some imageUrl) : (s.step e).probes[probe]? = some imageUrl := by
  cases e with
  | mouseenter dataImage =>
    cases dataImage with
    | none => simpa [Preview.step, updateFixedImage] using h
    | some url =>
      by_cases hu : url = ""
      · simpa [Preview.step, updateFixedImage, hu] using h
      · have hlt : probe < s.probes.length := (List.getElem?_eq_some.1 h).1
        simpa [Preview.step, updateFixedImage, hu, List.getElem?_append_left hlt] using h
  | load p =>
    cases hp : s.probes[p]? with
    | none => simpa [Preview.step, hp] using h
    | some url => simpa [Preview.step, hp, probeOnload] using h

theorem probes_run (trace : List PreviewEvent) (s : Preview) (probe : Nat) (imageUrl : String)
    (h : s.probes[probe]? = some imageUrl) : (s.run trace).probes[probe]? = some imageUrl := by
  induction trace generalizing s with
  | nil => exact h
  | cons e rest ih => exact ih (s.step e) (probes_step s e probe imageUrl h)

/-- C4 (amended).  For a hover on an element with a non-empty `data-image` URL:
the `updateFixedImage` call itself leaves the background image unchanged; in every
trace of events that follows, as long as no probe image fires its load event the
background image stays unchanged (so it never changes if no load event arrives);
every event that does change it is the load event of a probe image, of this hover or
of another one, and installs that probe's URL; and the load event of this hover's
probe, whenever it arrives, installs this hover's URL. -/
theorem background_changes_only_on_probe_load (s : Preview) (imageUrl : String)
    (hurl : imageUrl ≠ "") (trace : List PreviewEvent) :
    (updateFixedImage (some imageUrl) s).backgroundImage = s.backgroundImage ∧
    ((∀ e ∈ trace, ∀ probe, e ≠ .load probe) →
      ((updateFixedImage (some imageUrl) s).run trace).backgroundImage = s.backgroundImage) ∧
    (∀ before e after, trace = before ++ e :: after →
      (((updateFixedImage (some imageUrl) s).run before).step e).backgroundImage
          ≠ ((updateFixedImage (some imageUrl) s).run before).backgroundImage →
      ∃ probe url, e = .load probe ∧
        ((updateFixedImage (some imageUrl) s).run before).probes[probe]? = some url ∧
        (((updateFixedImage (some imageUrl) s).run before).step e).backgroundImage
          = some (.lit ("url(" ++ url ++ ")"))) ∧
    (((updateFixedImage (some imageUrl) s).run trace).step (.load s.probes.length)).backgroundImage
      = some (.lit ("url(" ++ imageUrl ++ ")")) := by
  refine ⟨by simp [Preview.backgroundImage], ?_, ?_, ?_⟩
  · intro hno
    rw [run_without_load trace _ hno]
    simp [Preview.backgroundImage]
  · intro before e after _ hne
    exact step_changes_backgroundImage _ e hne
  · have h0 : (updateFixedImage (some imageUrl) s).probes[s.probes.length]? = some imageUrl := by
      simp [updateFixedImage, hurl]
    have h1 := probes_run trace _ _ _ h0
    simp [Preview.step, h1, probeOnload_backgroundImage]

/-- C4, witness: a hover on `a.jpg`, then a hover on an element without image, then the
load event of the probe. -/
theorem background_changes_only_on_probe_load_witness :
    ((updateFixedImage (some "a.jpg") ⟨Styles.empty, []⟩).run [.mouseenter none]).backgroundImage
        = none ∧
    (((updateFixedImage (some "a.jpg") ⟨Styles.empty, []⟩).run [.mouseenter none]).step
        (.load 0)).backgroundImage = some (.lit ("url(" ++ "a.jpg" ++ ")")) :=
  ⟨(background_changes_only_on_probe_load ⟨Styles.empty, []⟩ "a.jpg" (by decide)
      [.mouseenter none]).2.1 (by simp),
   (background_changes_only_on_probe_load ⟨Styles.empty, []⟩ "a.jpg" (by decide)
      [.mouseenter none]).2.2.2⟩

/-- C4, counterexample: the pointer enters the element of `a.jpg` and then the element
of `b.jpg`; the probe of `a.jpg` loads while the probe of `b.jpg` (probe `1`) has not
loaded.  Between the `updateFixedImage` call for `b.jpg` and the load event of its
probe, the background image changes (to `a.jpg`). -/
theorem background_changes_before_own_probe_loads :
    ((Preview.run ⟨Styles.empty, []⟩
        [.mouseenter (some "a.jpg"), .mouseenter (some "b.jpg"), .load 0]).backgroundImage
      ≠ (Preview.run ⟨Styles.empty, []⟩
        [.mouseenter (some "a.jpg"), .mouseenter (some "b.jpg")]).backgroundImage) ∧
    (Preview.run ⟨Styles.empty, []⟩
        [.mouseenter (some "a.jpg"), .mouseenter (some "b.jpg")]).probes[1]? = some "b.jpg" ∧
    (Preview.run ⟨Styles.empty, []⟩
        [.mouseenter (some "a.jpg"), .mouseenter (some "b.jpg"), .load 0]).backgroundImage
      = some (.lit "url(a.jpg)") := by
  decide

/-! ## init -/

theorem initCallback_spec (h : Host) (w : World) :
    (initCallback h w).thrown = none ∧
    (initCallback h w).world.isInitialized = true ∧
    (initCallback h w).world.calls = w.calls ++ InitStep.inOrder ∧
    (initCallback h w).world.readyListeners = w.readyListeners ∧
    ((h.locomotiveScroll = .undefined ∨ h.locomotiveScroll = .ctorThrows) →
      (initCallback h w).world.scroll = w.scroll) ∧
    ((h.swiper = .undefined ∨ h.swiper = .ctorThrows) →
      (initCallback h w).world.swiper = w.swiper) := by
  obtain ⟨dom, loading, l1, l2⟩ := h
  cases l1 <;> cases l2 <;> cases hsc : dom.swiperContainer <;>
    simp [initCallback, initLocomotiveScroll, initLocomotiveScrollTry, initSwiperAnimation,
      initSwiperAnimationTry, Outcome.andThen, World.enter, World.emit, InitStep.inOrder, hsc]

/-- When the document is loaded, the second of two `init()` calls does nothing: the
six steps run once. -/
theorem initTwice_loaded (h : Host) (w : World) (hready : h.loading = false)
    (hfresh : w.isInitialized = false) :
    (initTwice h w).calls = w.calls ++ InitStep.inOrder ∧
    initTwice h w = (init h w).world := by
  obtain ⟨h1, h2, h3, -⟩ := initCallback_spec h w
  have hinit : init h w = initCallback h w := by simp [init, waitForDOM, hready, hfresh]
  have hsecond : init h (initCallback h w).world = ⟨(initCallback h w).world, none⟩ := by
    simp [init, h2]
  have htwice : initTwice h w = (init h w).world := by
    simp only [initTwice, hready, hinit, Outcome.andThen, h1, hsecond]
    simp
  exact ⟨by rw [htwice, hinit, h3], htwice⟩

/-- While the document is loading, each of two `init()` calls adds a listener, and
`DOMContentLoaded` runs the six steps twice. -/
theorem initTwice_loading (h : Host) (w : World) (hloading : h.loading = true)
    (hfresh : w.isInitialized = false) (hnone : w.readyListeners = 0) :
    (initTwice h w).calls = w.calls ++ InitStep.inOrder ++ InitStep.inOrder := by
  have hstep : ∀ w1 : World, (initCallback h w1).world.calls = w1.calls ++ InitStep.inOrder :=
    fun w1 => (initCallback_spec h w1).2.2.1
  simp [initTwice, hloading, init, waitForDOM, hfresh, Outcome.andThen, domContentLoaded,
    hnone, runReadyListeners, hstep]

/-- C1, failing input: on the sample page, with the document still loading, two calls
of `init()` followed by `DOMContentLoaded` run every init step twice (and the menu
trigger gets two click listeners), while with the document loaded every step runs
once. -/
theorem init_twice_while_loading_registers_twice :
    (initTwice loadingHost World.new).calls = InitStep.inOrder ++ InitStep.inOrder ∧
    (∀ step ∈ InitStep.inOrder, (initTwice loadingHost World.new).runs step = 2) ∧
    listenersOn .menuTrigger "click" (timeline 0 (initTwice loadingHost World.new).effects) = 2 ∧
    (initTwice loadedHost World.new).calls = InitStep.inOrder := by
  decide

/-- C7.  Whatever the libraries do, no exception escapes the callback of `init` or
`init` itself, all six steps run and `isInitialized` becomes true.  When the scroll
library is undefined or its constructor throws, `this.scroll` is left as it was (not
set), by `initLocomotiveScroll` and by the whole callback, and a throwing constructor
is answered with a warning; the same holds for the carousel library, `this.swiper` and
`initSwiperAnimation`. -/
theorem library_failure_is_isolated (h : Host) (w : World) :
    ((h.locomotiveScroll = .undefined ∨ h.locomotiveScroll = .ctorThrows) →
      (initLocomotiveScroll h w).thrown = none ∧
      (initLocomotiveScroll h w).world.scroll = w.scroll ∧
      (initCallback h w).world.scroll = w.scroll) ∧
    (h.locomotiveScroll = .ctorThrows →
      (initLocomotiveScroll h w).world.effects
        = .seq w.effects (.atom (.warn "Locomotive Scroll initialization failed:"))) ∧
    ((h.swiper = .undefined ∨ h.swiper = .ctorThrows) →
      (initSwiperAnimation h w).thrown = none ∧
      (initSwiperAnimation h w).world.swiper = w.swiper ∧
      (initCallback h w).world.swiper = w.swiper) ∧
    (initCallback h w).thrown = none ∧
    (initCallback h w).world.isInitialized = true ∧
    (initCallback h w).world.calls = w.calls ++ InitStep.inOrder ∧
    (init h w).thrown = none ∧
    (w.isInitialized = false → h.loading = false →
      (init h w).world.isInitialized = true ∧
      (init h w).world.calls = w.calls ++ InitStep.inOrder) := by
  obtain ⟨h1, h2, h3, -, h5, h6⟩ := initCallback_spec h w
  refine ⟨?_, ?_, ?_, h1, h2, h3, ?_, ?_⟩
  · intro hl
    refine ⟨?_, ?_, h5 hl⟩ <;>
      rcases hl with hl | hl <;> simp [initLocomotiveScroll, initLocomotiveScrollTry, hl, World.emit]
  · intro hl
    simp [initLocomotiveScroll, initLocomotiveScrollTry, hl, World.emit]
  · intro hl
    refine ⟨?_, ?_, h6 hl⟩ <;>
      rcases hl with hl | hl <;> cases hsc : h.dom.swiperContainer <;>
        simp [initSwiperAnimation, initSwiperAnimationTry, hl, hsc, World.emit]
  · unfold init waitForDOM
    split_ifs <;> simp [h1]
  · intro hfresh hready
    have hinit : init h w = initCallback h w := by simp [init, waitForDOM, hready, hfresh]
    rw [hinit]
    exact ⟨h2, h3⟩

/-- C7, witness: no scroll library and a carousel constructor that throws. -/
theorem library_failure_is_isolated_witness :
    (init brokenLibrariesHost World.new).thrown = none ∧
    (init brokenLibrariesHost World.new).world.isInitialized = true ∧
    (init brokenLibrariesHost World.new).world.calls = InitStep.inOrder ∧
    (initCallback brokenLibrariesHost World.new).world.scroll = false ∧
    (initCallback brokenLibrariesHost World.new).world.swiper = false :=
  ⟨(library_failure_is_isolated brokenLibrariesHost World.new).2.2.2.2.2.2.1,
   ((library_failure_is_isolated brokenLibrariesHost World.new).2.2.2.2.2.2.2 rfl rfl).1,
   ((library_failure_is_isolated brokenLibrariesHost World.new).2.2.2.2.2.2.2 rfl rfl).2,
   ((library_failure_is_isolated brokenLibrariesHost World.new).1 (Or.inl rfl)).2.2,
   ((library_failure_is_isolated brokenLibrariesHost World.new).2.2.1 (Or.inr rfl)).2.2⟩

/-! ## Missing targets -/

/-- C8 (amended).  When `#loader` is absent, `initLoaderAnimation` does nothing at
all: it issues no effect at any time (no listener, no style, no text, no warning) and
sets no timer.  The same holds for `initMenuAnimation` when `nav h3` or `#full-scr`
is absent and for `initPage4Animation` when `#elem-container` or `#fixed-image` is
absent.  The phase is skipped silently, without a warning, and no exception escapes
`init`. -/
theorem missing_target_skips_phase_silently (config : LoaderConfig) (dom : Dom) :
    (dom.loader = none →
      (∀ t, timeline t (initLoaderAnimation config dom) = []) ∧
      (initLoaderAnimation config dom).timers = 0) ∧
    ((dom.menuTrigger = false ∨ dom.fullScr = false) →
      (∀ t, timeline t (initMenuAnimation dom) = []) ∧
      (initMenuAnimation dom).timers = 0) ∧
    ((dom.elemContainer = false ∨ dom.fixedImage = false) →
      (∀ t, timeline t (initPage4Animation dom) = []) ∧
      (initPage4Animation dom).timers = 0) ∧
    (∀ (loading : Bool) (scrollLib swiperLib : Library) (w : World),
      (init ⟨dom, loading, scrollLib, swiperLib⟩ w).thrown = none) := by
  refine ⟨?_, ?_, ?_, ?_⟩
  · intro h
    simp [initLoaderAnimation, h, Eff.timers]
  · intro h
    simp [initMenuAnimation, h, Eff.timers]
  · intro h
    simp [initPage4Animation, h, Eff.timers]
  · intro loading scrollLib swiperLib w
    unfold init waitForDOM
    split_ifs <;> simp [(initCallback_spec _ _).1]

/-- C8, witness: a page with none of the elements. -/
theorem missing_target_skips_phase_silently_witness :
    timeline 0 (initLoaderAnimation defaultLoaderConfig emptyPage) = [] ∧
    timeline 0 (initMenuAnimation emptyPage) = [] ∧
    timeline 0 (initPage4Animation emptyPage) = [] :=
  ⟨((missing_target_skips_phase_silently defaultLoaderConfig emptyPage).1 rfl).1 0,
   ((missing_target_skips_phase_silently defaultLoaderConfig emptyPage).2.1 (Or.inl rfl)).1 0,
   ((missing_target_skips_phase_silently defaultLoaderConfig emptyPage).2.2.1 (Or.inl rfl)).1 0⟩

/-- C8, counterexample: on a page with none of the elements, none of the three init
methods logs a warning. -/
theorem missing_target_logs_no_warning :
    ¬ (∃ t msg, (t, Atom.warn msg) ∈ timeline 0 (initLoaderAnimation defaultLoaderConfig emptyPage)) ∧
    ¬ (∃ t msg, (t, Atom.warn msg) ∈ timeline 0 (initMenuAnimation emptyPage)) ∧
    ¬ (∃ t msg, (t, Atom.warn msg) ∈ timeline 0 (initPage4Animation emptyPage)) := by
  simp [initLoaderAnimation, initMenuAnimation, initPage4Animation, emptyPage]

end LandingPage
